import Mathlib

/-!
Shallow embedding of the conversation-memory, rate-limiting and resilient
completion-client core of `bot.py` (Trader Pro JLV), together with proofs of
the specified properties.

The Python globals `CTX` and `LAST_SEEN` become explicit state (`BotState`),
mutation becomes state passing, `time.time()` becomes an explicit rational
`now` parameter, and the outbound HTTP transport becomes an environment
`Nat → AttemptOutcome` scripting the outcome of each attempt of the
tenacity-wrapped `chat` call.
-/

namespace Bot

/-- A conversational turn: one `{"role": r, "content": c}` dict of `bot.py`. -/
structure Turn where
  role : String
  content : String
deriving DecidableEq, Repr

/-- `MAX_TURNS = 10` (bot.py line 50): number of remembered exchange pairs. -/
def MAX_TURNS : Nat := 10

/-- The fixed persona text `SYSTEM` (bot.py lines 42-47). -/
def SYSTEM : String :=
  "Tu es \x27Trader Pro JLV\x27, bot Telegram francophone 100% crypto. " ++
  "Tu parles comme un analyste de desk: clair, concret, opérationnel. " ++
  "Tu donnes d\x27abord la réponse utile (1–2 phrases), puis des détails, " ++
  "et des conseils de gestion du risque. Pas de jargon inutile."

/-- The seed turn `{"role": "system", "content": SYSTEM}` (bot.py line 55). -/
def systemTurn : Turn := ⟨"system", SYSTEM⟩

/-- Body of `_push` on a single history list (bot.py lines 58-62): append the
turn, and when the length exceeds `1 + 2*MAX_TURNS`, keep `[h[0]]` plus the
Python slice `h[-(2*MAX_TURNS):]`, i.e. the last `2*MAX_TURNS` elements
(`drop` with truncated subtraction matches Python slicing for short lists). -/
def pushList (h : List Turn) (t : Turn) : List Turn :=
  if (h ++ [t]).length > 1 + 2 * MAX_TURNS then
    (h ++ [t]).take 1 ++ (h ++ [t]).drop ((h ++ [t]).length - 2 * MAX_TURNS)
  else
    h ++ [t]

/-- Global mutable state of `bot.py`: the per-user history dict `CTX`
(line 49) and the per-user anti-spam timestamp dict `LAST_SEEN` (line 51). -/
structure BotState where
  ctx : Int → Option (List Turn)
  lastSeen : Int → Option ℚ

/-- The state at process start: both dicts empty. -/
def initState : BotState := ⟨fun _ => none, fun _ => none⟩

/-- Write `CTX[uid] = h`. -/
def setCtx (st : BotState) (uid : Int) (h : List Turn) : BotState :=
  { st with ctx := fun u => if u = uid then some h else st.ctx u }

/-- Write `LAST_SEEN[uid] = t`. -/
def setLastSeen (st : BotState) (uid : Int) (t : ℚ) : BotState :=
  { st with lastSeen := fun u => if u = uid then some t else st.lastSeen u }

/-- `_hist(uid)` (bot.py lines 53-56): seed `CTX[uid]` with the system turn
when absent, and return the (possibly updated) state with the history. -/
def hist (st : BotState) (uid : Int) : BotState × List Turn :=
  match st.ctx uid with
  | some h => (st, h)
  | none => (setCtx st uid [systemTurn], [systemTurn])

/-- The history `_hist(uid)` returns (ignoring the seeding side effect). -/
def histOf (st : BotState) (uid : Int) : List Turn :=
  (hist st uid).2

/-- `_push(uid, role, content)` (bot.py lines 58-62). -/
def push (st : BotState) (uid : Int) (role content : String) : BotState :=
  let p := hist st uid
  setCtx p.1 uid (pushList p.2 ⟨role, content⟩)

/-- A sequence of appends to one history list, oldest first. -/
def applyPushes (h : List Turn) (ts : List Turn) : List Turn :=
  ts.foldl pushList h

/-- A sequence of `_push` calls for one user, oldest first. -/
def pushMany (st : BotState) (uid : Int) (ts : List Turn) : BotState :=
  ts.foldl (fun s t => push s uid t.role t.content) st

/-- State effect of the `/reset` handler `cmd_reset` (bot.py lines 178-180):
`CTX[uid] = [{"role": "system", "content": SYSTEM}]`. -/
def reset (st : BotState) (uid : Int) : BotState :=
  setCtx st uid [systemTurn]

/-! The Turn Store operations as an abstract operation sequence (spec §4.1):
`get_or_create` is `_hist`, `append` is `_push`, `reset` is the `/reset`
handler's state effect. -/

inductive StoreOp where
  | getOrCreate (uid : Int)
  | append (uid : Int) (role content : String)
  | resetOp (uid : Int)

/-- Appends performed by the program carry only user/assistant roles (every
`_push` call site in bot.py passes `"user"` or `"assistant"`). -/
def StoreOp.roleOk : StoreOp → Bool
  | .append _ role _ => role == "user" || role == "assistant"
  | _ => true

def applyOp (st : BotState) : StoreOp → BotState
  | .getOrCreate uid => (hist st uid).1
  | .append uid role content => push st uid role content
  | .resetOp uid => reset st uid

def applyOps (st : BotState) (ops : List StoreOp) : BotState :=
  ops.foldl applyOp st

/-- Conversation invariant: the head is the seeded system turn and no other
turn carries the `system` role. -/
def convInv (h : List Turn) : Prop :=
  h.head? = some systemTurn ∧ ∀ t ∈ h.tail, t.role ≠ "system"

/-- Store invariant: every stored conversation satisfies `convInv`. -/
def stateInv (st : BotState) : Prop :=
  ∀ uid h, st.ctx uid = some h → convInv h

/-! The resilient completion client `chat` (bot.py lines 133-153). -/

/-- Default completion model: `os.getenv("MODEL_NAME", "gpt-4o-mini")`. -/
def MODEL_NAME : String := "gpt-4o-mini"

/-- Default completion API base URL:
`os.getenv("OPENAI_BASE_URL", "https://api.openai.com/v1")`. -/
def OPENAI_BASE : String := "https://api.openai.com/v1"

/-- Fixed user-facing string returned on an HTTP error status (bot.py 147). -/
def HTTP_ERROR_MSG : String := "Erreur côté IA (HTTP)."

/-- Fixed user-facing string returned on an unexpected response shape
(bot.py 153). -/
def UNEXPECTED_MSG : String := "Réponse IA inattendue."

/-- Fixed apology `on_text` sends when `chat` raises (bot.py 416). -/
def FALLBACK_MSG : String := "⚠️ Petit problème côté IA. Réessaie."

/-- A parsed JSON value, for completion response bodies. -/
inductive Json where
  | str (s : String)
  | num (n : Int)
  | arr (elems : List Json)
  | obj (fields : List (String × Json))

/-- Python dict subscription `data[k]`: `none` models the `KeyError` or
`TypeError` the bare subscription would raise. -/
def Json.getField : Json → String → Option Json
  | .obj fields, k => (fields.find? (fun p => p.1 == k)).map (fun p => p.2)
  | _, _ => none

/-- Python list subscription `data[i]`: `none` models the `IndexError` or
`TypeError` the bare subscription would raise. -/
def Json.getIndex : Json → Nat → Option Json
  | .arr elems, i => elems.get? i
  | _, _ => none

/-- The extraction `data["choices"][0]["message"]["content"]` (bot.py 150),
requiring a string value so that `.strip()` applies; `none` models the
exception caught at bot.py 151. -/
def extractContent (data : Json) : Option String :=
  (data.getField "choices").bind fun c =>
    (c.getIndex 0).bind fun c0 =>
      (c0.getField "message").bind fun m =>
        (m.getField "content").bind fun v =>
          match v with
          | .str s => some s
          | _ => none

/-- The JSON `payload` built by `chat` (bot.py lines 135-140); each turn is
serialized as its `(role, content)` pair. -/
structure Payload where
  model : String
  messages : List (String × String)
  temperature : ℚ
  max_tokens : Nat
deriving DecidableEq, Repr

def chatPayload (messages : List Turn) : Payload :=
  ⟨MODEL_NAME, messages.map (fun t => (t.role, t.content)), 35/100, 750⟩

/-- One outbound HTTP request of the completion client. -/
structure HttpRequest where
  method : String
  url : String
  payload : Payload
deriving DecidableEq, Repr

/-- `client.post("/chat/completions", json=payload)` against the
`httpx.AsyncClient` with `base_url=OPENAI_BASE` (bot.py 68-72, 142). -/
def chatRequest (messages : List Turn) : HttpRequest :=
  ⟨"POST", OPENAI_BASE ++ "/chat/completions", chatPayload messages⟩

/-- Outcome of one HTTP attempt as seen by the body of `chat`: either the
transport raises (`httpx` network error or timeout), or a response arrives
with a status code, its raw text, and its parsed JSON body. -/
inductive AttemptOutcome where
  | transportError
  | response (status : Nat) (rawText : String) (body : Json)

/-- Diagnostic log entries `chat` can emit (bot.py 146 and 152). -/
inductive LogEntry where
  | httpError (status : Nat) (bodyPrefix : String)
  | unexpectedResponse (body : Json)

/-- Python `str.strip()`: drop leading and trailing whitespace. (Lean core
`String.trim` is defined by well-founded recursion and does not evaluate in
the kernel, so the embedding uses this structurally recursive equivalent.) -/
def pyStrip (s : String) : String :=
  ⟨((s.data.dropWhile Char.isWhitespace).reverse.dropWhile
      Char.isWhitespace).reverse⟩

/-- The body of `chat` for a single attempt (bot.py lines 141-153): a
transport raise escapes to tenacity (`none`); a response with a non-2xx
status is caught by the `except httpx.HTTPStatusError` clause, logged, and
turned into the fixed HTTP-error string; a 2xx response is parsed and either
yields the stripped content or the fixed unexpected-response string with a
diagnostic log of the body. -/
def attemptBody : AttemptOutcome → Option (String × List LogEntry)
  | .transportError => none
  | .response status rawText body =>
    if 200 ≤ status ∧ status < 300 then
      match extractContent body with
      | some s => some ((pyStrip s), [])
      | none => some (UNEXPECTED_MSG, [.unexpectedResponse body])
    else
      some (HTTP_ERROR_MSG, [.httpError status (rawText.take 400)])

inductive ChatResult where
  | resolved (text : String)
  | raised
deriving DecidableEq, Repr

/-- Observable trace of one `chat` invocation: how it ended, how many
attempts ran, the waits tenacity inserted between attempts, the requests
sent, and the diagnostic logs. -/
structure ChatTrace where
  result : ChatResult
  attemptsUsed : Nat
  waits : List ℚ
  requests : List HttpRequest
  logs : List LogEntry

/-- tenacity `wait_exponential(min=1, max=8)` after failed attempt `n`
(1-based): `clamp(multiplier * exp_base ** (attempt_number - 1), min, max)`
with `multiplier = 1`, `exp_base = 2`. -/
def backoffWait (n : Nat) : ℚ := max 1 (min ((2 : ℚ) ^ (n - 1)) 8)

/-- The decorator `@retry(wait=wait_exponential(min=1, max=8),
stop=stop_after_attempt(3))` (bot.py 133) applied to the body of `chat`,
unrolled for its three attempts: a raise on attempt 1 or 2 waits
`backoffWait n` and retries; a raise on attempt 3 makes tenacity re-raise to
the caller (`.raised`); a returned value resolves immediately. `env n` is
the transport outcome of the `n`-th attempt. -/
def chat (messages : List Turn) (env : Nat → AttemptOutcome) : ChatTrace :=
  match attemptBody (env 1) with
  | some (text, logs) =>
    ⟨.resolved text, 1, [], [chatRequest messages], logs⟩
  | none =>
    match attemptBody (env 2) with
    | some (text, logs) =>
      ⟨.resolved text, 2, [backoffWait 1],
        [chatRequest messages, chatRequest messages], logs⟩
    | none =>
      match attemptBody (env 3) with
      | some (text, logs) =>
        ⟨.resolved text, 3, [backoffWait 1, backoffWait 2],
          [chatRequest messages, chatRequest messages, chatRequest messages], logs⟩
      | none =>
        ⟨.raised, 3, [backoffWait 1, backoffWait 2],
          [chatRequest messages, chatRequest messages, chatRequest messages], []⟩

/-! The anti-spam gate and the free-text message handler `on_text`
(bot.py lines 392-416). -/

/-- The debounce interval `0.6` seconds (bot.py 404). -/
def MIN_INTERVAL : ℚ := 6/10

/-- The anti-spam gate inlined in `on_text` (bot.py 403-406): drop the
message when a prior timestamp exists within `MIN_INTERVAL` of `now`;
otherwise record `now` as the user's last-contact timestamp and allow. -/
def rateAllow (st : BotState) (uid : Int) (now : ℚ) : BotState × Bool :=
  match st.lastSeen uid with
  | some prior =>
    if now - prior < MIN_INTERVAL then (st, false)
    else (setLastSeen st uid now, true)
  | none => (setLastSeen st uid now, true)

/-- Observable trace of one `on_text` invocation: the final state, the reply
texts sent, and the message sequence passed to `chat` (if it was called). -/
structure OnTextTrace where
  state : BotState
  replies : List String
  called : Option (List Turn)

/-- The free-text handler `on_text` (bot.py 392-416) on a text message from
`uid` at time `now`: echo the stripped text, apply the anti-spam gate, push
the user turn, call `chat` on the user's full history, and either push and
send the assistant reply or catch the raised exception and send the fixed
apology. -/
def on_text (st : BotState) (uid : Int) (text : String) (now : ℚ)
    (env : Nat → AttemptOutcome) : OnTextTrace :=
  match rateAllow st uid now with
  | (st1, false) => ⟨st1, ["✅ Reçu : " ++ (pyStrip text)], none⟩
  | (st1, true) =>
    match (chat (histOf (push st1 uid "user" (pyStrip text)) uid) env).result with
    | .resolved reply =>
      ⟨push (push st1 uid "user" (pyStrip text)) uid "assistant" reply,
        ["✅ Reçu : " ++ (pyStrip text), reply],
        some (histOf (push st1 uid "user" (pyStrip text)) uid)⟩
    | .raised =>
      ⟨push st1 uid "user" (pyStrip text),
        ["✅ Reçu : " ++ (pyStrip text), FALLBACK_MSG],
        some (histOf (push st1 uid "user" (pyStrip text)) uid)⟩

/-! Concrete transport environments used in counterexamples and witnesses. -/

/-- A well-formed completion response body whose reply text is "hi there". -/
def goodBody : Json :=
  Json.obj [("choices", Json.arr [Json.obj [("message",
    Json.obj [("content", Json.str "hi there")])]])]

/-- The malformed body of the spec scenario: an empty `choices` list. -/
def emptyChoicesBody : Json := Json.obj [("choices", Json.arr [])]

/-- Every attempt gets HTTP 500. -/
def env500 : Nat → AttemptOutcome :=
  fun _ => .response 500 "Internal Server Error" (Json.obj [])

/-- HTTP 500 on the first attempt, then a well-formed success. -/
def envHttp500ThenOk : Nat → AttemptOutcome := fun n =>
  if n = 1 then .response 500 "Internal Server Error" (Json.obj [])
  else .response 200 "ok" goodBody

/-- Every attempt fails at the transport (network error or timeout). -/
def envDown : Nat → AttemptOutcome := fun _ => .transportError

/-- Every attempt succeeds with the well-formed body. -/
def envHi : Nat → AttemptOutcome := fun _ => .response 200 "ok" goodBody

/-- 2xx success whose body has an empty `choices` list. -/
def envEmptyChoices : Nat → AttemptOutcome :=
  fun _ => .response 200 "ok" emptyChoicesBody

/-! Basic lemmas about the store. -/

theorem setCtx_ctx_self (st : BotState) (uid : Int) (h : List Turn) :
    (setCtx st uid h).ctx uid = some h := by
  simp [setCtx]

theorem hist_fst_ctx (st : BotState) (uid : Int) :
    ((hist st uid).1).ctx uid = some (histOf st uid) := by
  cases hc : st.ctx uid with
  | some h => simp [hist, histOf, hc]
  | none => simp [hist, histOf, hc, setCtx_ctx_self]

theorem push_ctx_self (st : BotState) (uid : Int) (role content : String) :
    (push st uid role content).ctx uid
      = some (pushList (histOf st uid) ⟨role, content⟩) := by
  unfold push
  exact setCtx_ctx_self _ _ _

theorem histOf_push (st : BotState) (uid : Int) (role content : String) :
    histOf (push st uid role content) uid
      = pushList (histOf st uid) ⟨role, content⟩ := by
  have h := push_ctx_self st uid role content
  simp [histOf, hist, h]

/-- Closed form of a run of appends on a fresh history: the result is the
system turn followed by the last `2*MAX_TURNS` appended turns. -/
theorem applyPushes_fresh (ts : List Turn) :
    applyPushes [systemTurn] ts
      = systemTurn :: ts.drop (ts.length - 2 * MAX_TURNS) := by
  have hM : MAX_TURNS = 10 := rfl
  induction ts using List.reverseRecOn with
  | nil => simp [applyPushes]
  | append_singleton ts t ih =>
    have hstep : applyPushes [systemTurn] (ts ++ [t])
        = pushList (applyPushes [systemTurn] ts) t := by
      simp [applyPushes, List.foldl_append]
    rw [hstep, ih]
    by_cases hlen : ts.length < 2 * MAX_TURNS
    · have hk : ts.length - 2 * MAX_TURNS = 0 := by omega
      have hk2 : (ts ++ [t]).length - 2 * MAX_TURNS = 0 := by
        simp only [List.length_append, List.length_singleton]
        omega
      rw [hk, hk2, List.drop_zero, List.drop_zero]
      unfold pushList
      rw [if_neg]
      · simp
      · simp only [List.cons_append, List.length_cons, List.length_append,
          List.length_singleton, List.length_nil, gt_iff_lt, not_lt]
        omega
    · -- eviction branch: the current history is already at the bound
      push_neg at hlen
      have hdlen : (ts.drop (ts.length - 2 * MAX_TURNS)).length = 2 * MAX_TURNS := by
        rw [List.length_drop]; omega
      unfold pushList
      rw [if_pos (by
        simp only [List.cons_append, List.length_cons, List.length_append,
          List.length_singleton, List.length_nil, hdlen, gt_iff_lt]
        omega)]
      have hlen2 : ((systemTurn :: ts.drop (ts.length - 2 * MAX_TURNS)) ++ [t]).length
          - 2 * MAX_TURNS = 2 := by
        simp only [List.cons_append, List.length_cons, List.length_append,
          List.length_singleton, List.length_nil, hdlen]
        omega
      rw [hlen2]
      have hdrop2 : ((systemTurn :: ts.drop (ts.length - 2 * MAX_TURNS)) ++ [t]).drop 2
          = ts.drop (ts.length - 2 * MAX_TURNS + 1) ++ [t] := by
        rw [List.cons_append, List.drop_succ_cons,
          List.drop_append_of_le_length (by rw [hdlen]; omega), List.drop_drop]
      have hrhs : (ts ++ [t]).drop ((ts ++ [t]).length - 2 * MAX_TURNS)
          = ts.drop (ts.length - 2 * MAX_TURNS + 1) ++ [t] := by
        have hidx : (ts ++ [t]).length - 2 * MAX_TURNS
            = ts.length - 2 * MAX_TURNS + 1 := by
          simp only [List.length_append, List.length_singleton]
          omega
        rw [hidx, List.drop_append_of_le_length (by omega)]
      rw [hdrop2, hrhs]
      simp

/-- A fresh history after any number of appends never exceeds the bound. -/
theorem applyPushes_fresh_length_le (ts : List Turn) :
    (applyPushes [systemTurn] ts).length ≤ 1 + 2 * MAX_TURNS := by
  rw [applyPushes_fresh]
  simp only [List.length_cons, List.length_drop]
  omega

/-- The conversation `_hist` reads after a run of `_push` calls is the run of
list-level pushes on the conversation `_hist` read before. -/
theorem histOf_pushMany (uid : Int) (ts : List Turn) (st : BotState) :
    histOf (pushMany st uid ts) uid = applyPushes (histOf st uid) ts := by
  induction ts generalizing st with
  | nil => rfl
  | cons t ts ih =>
    have h1 : pushMany st uid (t :: ts)
        = pushMany (push st uid t.role t.content) uid ts := rfl
    have h2 : applyPushes (histOf st uid) (t :: ts)
        = applyPushes (pushList (histOf st uid) t) ts := rfl
    rw [h1, h2, ih, histOf_push]

/-- After at least one `_push`, the key is present in `CTX` and holds exactly
what `_hist` reads. -/
theorem pushMany_ctx_of_ne_nil (uid : Int) (ts : List Turn) (st : BotState)
    (hts : ts ≠ []) :
    (pushMany st uid ts).ctx uid = some (histOf (pushMany st uid ts) uid) := by
  induction ts generalizing st with
  | nil => exact absurd rfl hts
  | cons t ts ih =>
    have h1 : pushMany st uid (t :: ts)
        = pushMany (push st uid t.role t.content) uid ts := rfl
    rw [h1]
    cases ts with
    | nil =>
      have h2 : pushMany (push st uid t.role t.content) uid []
          = push st uid t.role t.content := rfl
      rw [h2, push_ctx_self]
      rw [histOf_push]
    | cons t2 ts2 => exact ih _ (by simp)

/-- Equality of states follows from equality of the two dicts. -/
theorem BotState.ext_fields (a b : BotState) (hc : a.ctx = b.ctx)
    (hl : a.lastSeen = b.lastSeen) : a = b := by
  cases a; cases b; simp_all

theorem convInv_seed : convInv [systemTurn] :=
  ⟨rfl, by simp⟩

theorem convInv_pushList (h : List Turn) (t : Turn) (hinv : convInv h)
    (ht : t.role ≠ "system") : convInv (pushList h t) := by
  obtain ⟨hhead, htail⟩ := hinv
  cases h with
  | nil => simp at hhead
  | cons s rest =>
    have hs : s = systemTurn := by simpa using hhead
    subst hs
    have htail' : ∀ x ∈ rest, x.role ≠ "system" := by
      intro x hx
      exact htail x (by simpa using hx)
    unfold pushList
    by_cases hc : ((systemTurn :: rest) ++ [t]).length > 1 + 2 * MAX_TURNS
    · rw [if_pos hc]
      have hM : MAX_TURNS = 10 := rfl
      have hrest : 2 * MAX_TURNS ≤ rest.length + 1 := by
        simp only [List.cons_append, List.length_cons, List.length_append,
          List.length_singleton, List.length_nil, gt_iff_lt] at hc
        omega
      have hk : ∃ k, ((systemTurn :: rest) ++ [t]).length - 2 * MAX_TURNS
          = k + 1 := by
        refine ⟨((systemTurn :: rest) ++ [t]).length - 2 * MAX_TURNS - 1, ?_⟩
        simp only [List.cons_append, List.length_cons, List.length_append,
          List.length_singleton, List.length_nil]
        omega
      obtain ⟨k, hkeq⟩ := hk
      rw [hkeq]
      constructor
      · simp
      · intro x hx
        simp only [List.cons_append, List.take_succ_cons, List.take_zero,
          List.drop_succ_cons, List.singleton_append, List.tail_cons] at hx
        have hx2 : x ∈ rest ++ [t] := List.mem_of_mem_drop hx
        rcases List.mem_append.mp hx2 with h1 | h1
        · exact htail' x h1
        · simp only [List.mem_singleton] at h1
          subst h1
          exact ht
    · rw [if_neg hc]
      constructor
      · simp
      · intro x hx
        simp only [List.cons_append, List.tail_cons] at hx
        rcases List.mem_append.mp hx with h1 | h1
        · exact htail' x h1
        · simp only [List.mem_singleton] at h1
          subst h1
          exact ht

theorem stateInv_setCtx (st : BotState) (uid : Int) (h : List Turn)
    (hst : stateInv st) (hinv : convInv h) : stateInv (setCtx st uid h) := by
  intro u h' hc
  by_cases he : u = uid
  · subst he
    rw [setCtx_ctx_self] at hc
    have := Option.some.inj hc
    subst this
    exact hinv
  · have hcc : (setCtx st uid h).ctx u = st.ctx u := by simp [setCtx, he]
    rw [hcc] at hc
    exact hst u h' hc

theorem stateInv_init : stateInv initState := by
  intro u h hc
  simp [initState] at hc

theorem stateInv_hist_fst (st : BotState) (uid : Int) (hst : stateInv st) :
    stateInv (hist st uid).1 := by
  unfold hist
  cases hc : st.ctx uid with
  | some h => simpa [hc] using hst
  | none =>
    simp only [hc]
    exact stateInv_setCtx st uid _ hst convInv_seed

theorem convInv_histOf (st : BotState) (uid : Int) (hst : stateInv st) :
    convInv (histOf st uid) := by
  unfold histOf hist
  cases hc : st.ctx uid with
  | some h =>
    simp only [hc]
    exact hst uid h hc
  | none =>
    simp only [hc]
    exact convInv_seed

theorem stateInv_applyOp (st : BotState) (op : StoreOp) (hst : stateInv st)
    (hop : op.roleOk = true) : stateInv (applyOp st op) := by
  cases op with
  | getOrCreate uid => exact stateInv_hist_fst st uid hst
  | append uid role content =>
    have hrole : role ≠ "system" := by
      simp only [StoreOp.roleOk, Bool.or_eq_true, beq_iff_eq] at hop
      rcases hop with h1 | h1 <;> (subst h1; decide)
    unfold applyOp push
    refine stateInv_setCtx _ _ _ (stateInv_hist_fst st uid hst) ?_
    exact convInv_pushList _ _ (convInv_histOf st uid hst) hrole
  | resetOp uid =>
    exact stateInv_setCtx st uid _ hst convInv_seed

theorem stateInv_applyOps (ops : List StoreOp) (st : BotState)
    (hst : stateInv st) (hops : ∀ op ∈ ops, op.roleOk = true) :
    stateInv (applyOps st ops) := by
  induction ops generalizing st with
  | nil => exact hst
  | cons op ops ih =>
    have h1 : applyOps st (op :: ops) = applyOps (applyOp st op) ops := rfl
    rw [h1]
    exact ih _ (stateInv_applyOp st op hst (hops op (by simp)))
      (fun o ho => hops o (by simp [ho]))

/-! Claim theorems for the Turn Store. -/

/-- C1: for every user, after a sequence of more than `1 + 2*MAX_TURNS`
appends to a freshly created conversation, the stored conversation has length
exactly `1 + 2*MAX_TURNS`, its first turn is the original system turn, its
remaining turns are exactly the last `2*MAX_TURNS` appended turns in their
original relative order, and after any sequence of appends the length never
exceeds `1 + 2*MAX_TURNS`. -/
theorem conversation_bound_c1 (uid : Int) (ts : List Turn)
    (hN : 1 + 2 * MAX_TURNS < ts.length) :
    ∃ conv,
      (pushMany initState uid ts).ctx uid = some conv ∧
      conv.length = 1 + 2 * MAX_TURNS ∧
      conv.head? = some systemTurn ∧
      conv.tail = ts.drop (ts.length - 2 * MAX_TURNS) ∧
      conv.tail.length = 2 * MAX_TURNS ∧
      ∀ us : List Turn,
        (histOf (pushMany initState uid us) uid).length ≤ 1 + 2 * MAX_TURNS := by
  have hM : MAX_TURNS = 10 := rfl
  have hinit : histOf initState uid = [systemTurn] := rfl
  have hne : ts ≠ [] := by
    intro h
    rw [h] at hN
    simp at hN
  have hh : histOf (pushMany initState uid ts) uid
      = systemTurn :: ts.drop (ts.length - 2 * MAX_TURNS) := by
    rw [histOf_pushMany, hinit, applyPushes_fresh]
  refine ⟨systemTurn :: ts.drop (ts.length - 2 * MAX_TURNS), ?_, ?_, rfl, rfl, ?_, ?_⟩
  · rw [← hh]
    exact pushMany_ctx_of_ne_nil uid ts initState hne
  · simp only [List.length_cons, List.length_drop]
    omega
  · simp only [List.tail_cons, List.length_drop]
    omega
  · intro us
    rw [histOf_pushMany, hinit]
    exact applyPushes_fresh_length_le us

/-- Witness for C1 at a concrete run of 22 appends for user 7. -/
theorem conversation_bound_c1_witness :
    ∃ conv,
      (pushMany initState 7 (List.replicate 22 ⟨"user", "x"⟩)).ctx 7 = some conv ∧
      conv.length = 1 + 2 * MAX_TURNS := by
  obtain ⟨conv, h1, h2, _⟩ :=
    conversation_bound_c1 7 (List.replicate 22 ⟨"user", "x"⟩) (by decide)
  exact ⟨conv, h1, h2⟩

/-- C4: under any sequence of Turn Store operations (`get_or_create`,
`append` with the roles the program uses, `reset`) from the fresh process
state, every user's conversation starts with the single system turn holding
the fixed persona text, and contains exactly one turn with the `system`
role. -/
theorem system_turn_invariant_c4 (ops : List StoreOp)
    (hops : ∀ op ∈ ops, op.roleOk = true) (uid : Int) :
    (histOf (applyOps initState ops) uid).head? = some (⟨"system", SYSTEM⟩ : Turn) ∧
    (histOf (applyOps initState ops) uid).countP (fun t => t.role == "system") = 1 := by
  have hst : stateInv (applyOps initState ops) :=
    stateInv_applyOps ops initState stateInv_init hops
  obtain ⟨hhead, htail⟩ := convInv_histOf (applyOps initState ops) uid hst
  refine ⟨hhead, ?_⟩
  cases hconv : histOf (applyOps initState ops) uid with
  | nil => rw [hconv] at hhead; simp at hhead
  | cons s rest =>
    rw [hconv] at hhead htail
    have hs : s = systemTurn := by simpa using hhead
    subst hs
    rw [List.countP_cons]
    have h0 : rest.countP (fun t => t.role == "system") = 0 := by
      rw [List.countP_eq_zero]
      intro x hx
      have := htail x (by simpa using hx)
      simp [this]
    rw [h0]
    simp [systemTurn]

/-- Witness for C4 at a concrete operation sequence for user 1. -/
theorem system_turn_invariant_c4_witness :
    (histOf (applyOps initState
        [.getOrCreate 1, .append 1 "user" "salut", .append 1 "assistant" "bonjour",
         .resetOp 1, .append 1 "user" "re"]) 1).head?
      = some (⟨"system", SYSTEM⟩ : Turn) :=
  (system_turn_invariant_c4
    [.getOrCreate 1, .append 1 "user" "salut", .append 1 "assistant" "bonjour",
     .resetOp 1, .append 1 "user" "re"] (by decide) 1).1

/-- C5: `reset` always yields the length-one seeded conversation, regardless
of the prior state of the key (absent, seeded, filled or at the bound), and
it is idempotent: resetting twice equals resetting once. -/
theorem reset_idempotent_c5 (st : BotState) (uid : Int) :
    (reset st uid).ctx uid = some [systemTurn] ∧
    histOf (reset st uid) uid = [systemTurn] ∧
    reset (reset st uid) uid = reset st uid := by
  refine ⟨setCtx_ctx_self st uid _, ?_, ?_⟩
  · simp [histOf, hist, reset, setCtx_ctx_self]
  · refine BotState.ext_fields _ _ ?_ rfl
    funext u
    by_cases he : u = uid <;> simp [reset, setCtx, he]

theorem attemptBody_eq_none_iff (o : AttemptOutcome) :
    attemptBody o = none ↔ o = .transportError := by
  cases o with
  | transportError => simp [attemptBody]
  | response status rawText body =>
    constructor
    · intro h
      exfalso
      simp only [attemptBody] at h
      by_cases hs : 200 ≤ status ∧ status < 300
      · rw [if_pos hs] at h
        cases hx : extractContent body with
        | some s => rw [hx] at h; exact Option.noConfusion h
        | none => rw [hx] at h; exact Option.noConfusion h
      · rw [if_neg hs] at h
        exact Option.noConfusion h
    · intro h
      exact AttemptOutcome.noConfusion h

/-- Exhaustive description of a `chat` run by the first attempt whose body
returns. -/
theorem chat_cases (messages : List Turn) (env : Nat → AttemptOutcome) :
    (∃ text logs, attemptBody (env 1) = some (text, logs) ∧
      chat messages env = ⟨.resolved text, 1, [], [chatRequest messages], logs⟩) ∨
    (attemptBody (env 1) = none ∧
      ∃ text logs, attemptBody (env 2) = some (text, logs) ∧
      chat messages env = ⟨.resolved text, 2, [backoffWait 1],
        [chatRequest messages, chatRequest messages], logs⟩) ∨
    (attemptBody (env 1) = none ∧ attemptBody (env 2) = none ∧
      ∃ text logs, attemptBody (env 3) = some (text, logs) ∧
      chat messages env = ⟨.resolved text, 3, [backoffWait 1, backoffWait 2],
        [chatRequest messages, chatRequest messages, chatRequest messages], logs⟩) ∨
    (attemptBody (env 1) = none ∧ attemptBody (env 2) = none ∧
      attemptBody (env 3) = none ∧
      chat messages env = ⟨.raised, 3, [backoffWait 1, backoffWait 2],
        [chatRequest messages, chatRequest messages, chatRequest messages], []⟩) := by
  unfold chat
  cases h1 : attemptBody (env 1) with
  | some v =>
    obtain ⟨text, logs⟩ := v
    exact Or.inl ⟨text, logs, rfl, rfl⟩
  | none =>
    cases h2 : attemptBody (env 2) with
    | some v =>
      obtain ⟨text, logs⟩ := v
      exact Or.inr (Or.inl ⟨rfl, text, logs, rfl, rfl⟩)
    | none =>
      cases h3 : attemptBody (env 3) with
      | some v =>
        obtain ⟨text, logs⟩ := v
        exact Or.inr (Or.inr (Or.inl ⟨rfl, rfl, text, logs, rfl, rfl⟩))
      | none =>
        exact Or.inr (Or.inr (Or.inr ⟨rfl, rfl, rfl, rfl⟩))

/-! Helper lemmas about the single-attempt outcomes of `chat`. -/

theorem chat_first_some (messages : List Turn) (env : Nat → AttemptOutcome)
    (text : String) (logs : List LogEntry)
    (h : attemptBody (env 1) = some (text, logs)) :
    chat messages env = ⟨.resolved text, 1, [], [chatRequest messages], logs⟩ := by
  unfold chat
  rw [h]

theorem chat_http_error (messages : List Turn) (env : Nat → AttemptOutcome)
    (status : Nat) (rawText : String) (body : Json)
    (henv : env 1 = .response status rawText body)
    (hns : ¬(200 ≤ status ∧ status < 300)) :
    chat messages env = ⟨.resolved HTTP_ERROR_MSG, 1, [],
      [chatRequest messages], [.httpError status (rawText.take 400)]⟩ := by
  apply chat_first_some
  rw [henv]
  simp [attemptBody, hns]

theorem chat_unexpected (messages : List Turn) (env : Nat → AttemptOutcome)
    (status : Nat) (rawText : String) (body : Json)
    (henv : env 1 = .response status rawText body)
    (h2xx : 200 ≤ status ∧ status < 300)
    (hex : extractContent body = none) :
    chat messages env = ⟨.resolved UNEXPECTED_MSG, 1, [],
      [chatRequest messages], [.unexpectedResponse body]⟩ := by
  apply chat_first_some
  rw [henv]
  simp [attemptBody, h2xx, hex]

theorem chat_success (messages : List Turn) (env : Nat → AttemptOutcome)
    (status : Nat) (rawText : String) (body : Json) (s : String)
    (henv : env 1 = .response status rawText body)
    (h2xx : 200 ≤ status ∧ status < 300)
    (hex : extractContent body = some s) :
    chat messages env = ⟨.resolved (pyStrip s), 1, [], [chatRequest messages], []⟩ := by
  apply chat_first_some
  rw [henv]
  simp [attemptBody, h2xx, hex]

theorem chat_attempts_le (messages : List Turn) (env : Nat → AttemptOutcome) :
    (chat messages env).attemptsUsed ≤ 3 := by
  rcases chat_cases messages env with
      ⟨t, l, hb, heq⟩ | ⟨h1, t, l, hb, heq⟩ | ⟨h1, h2, t, l, hb, heq⟩ | ⟨h1, h2, h3, heq⟩ <;>
    rw [heq] <;> norm_num

theorem chat_raised_iff (messages : List Turn) (env : Nat → AttemptOutcome) :
    (chat messages env).result = .raised ↔
      env 1 = .transportError ∧ env 2 = .transportError ∧ env 3 = .transportError := by
  rcases chat_cases messages env with
      ⟨t, l, hb, heq⟩ | ⟨h1, t, l, hb, heq⟩ | ⟨h1, h2, t, l, hb, heq⟩ | ⟨h1, h2, h3, heq⟩
  · rw [heq]
    constructor
    · intro hr
      exact ChatResult.noConfusion hr
    · rintro ⟨e1, e2, e3⟩
      rw [e1] at hb
      simp [attemptBody] at hb
  · rw [heq]
    constructor
    · intro hr
      exact ChatResult.noConfusion hr
    · rintro ⟨e1, e2, e3⟩
      rw [e2] at hb
      simp [attemptBody] at hb
  · rw [heq]
    constructor
    · intro hr
      exact ChatResult.noConfusion hr
    · rintro ⟨e1, e2, e3⟩
      rw [e3] at hb
      simp [attemptBody] at hb
  · rw [heq]
    constructor
    · intro _
      exact ⟨(attemptBody_eq_none_iff _).mp h1, (attemptBody_eq_none_iff _).mp h2,
        (attemptBody_eq_none_iff _).mp h3⟩
    · intro _
      rfl

theorem chat_waits_spec (messages : List Turn) (env : Nat → AttemptOutcome) :
    (chat messages env).waits
      = (List.range ((chat messages env).attemptsUsed - 1)).map
          (fun i => backoffWait (i + 1)) := by
  rcases chat_cases messages env with
      ⟨t, l, hb, heq⟩ | ⟨h1, t, l, hb, heq⟩ | ⟨h1, h2, t, l, hb, heq⟩ | ⟨h1, h2, h3, heq⟩ <;>
    rw [heq] <;> rfl

/-! Helper lemmas about the anti-spam gate. -/

theorem rateAllow_false_iff (st : BotState) (uid : Int) (now : ℚ) :
    (rateAllow st uid now).2 = false ↔
      ∃ p, st.lastSeen uid = some p ∧ now - p < MIN_INTERVAL := by
  unfold rateAllow
  cases hl : st.lastSeen uid with
  | some p =>
    by_cases hlt : now - p < MIN_INTERVAL
    · simp [hlt]
    · simp [hlt]
  | none => simp

theorem rateAllow_false_state (st : BotState) (uid : Int) (now : ℚ)
    (h : (rateAllow st uid now).2 = false) :
    (rateAllow st uid now).1 = st := by
  unfold rateAllow at h ⊢
  cases hl : st.lastSeen uid with
  | some p =>
    rw [hl] at h
    by_cases hlt : now - p < MIN_INTERVAL
    · show (if now - p < MIN_INTERVAL then (st, false)
          else (setLastSeen st uid now, true)).1 = st
      rw [if_pos hlt]
    · have h2 : (if now - p < MIN_INTERVAL then (st, false)
          else (setLastSeen st uid now, true)).2 = false := h
      rw [if_neg hlt] at h2
      exact Bool.noConfusion h2
  | none =>
    rw [hl] at h
    exact Bool.noConfusion h

theorem rateAllow_true_lastSeen (st : BotState) (uid : Int) (now : ℚ)
    (h : (rateAllow st uid now).2 = true) :
    (rateAllow st uid now).1.lastSeen uid = some now := by
  unfold rateAllow at h ⊢
  cases hl : st.lastSeen uid with
  | some p =>
    rw [hl] at h
    by_cases hlt : now - p < MIN_INTERVAL
    · have h2 : (if now - p < MIN_INTERVAL then (st, false)
          else (setLastSeen st uid now, true)).2 = true := h
      rw [if_pos hlt] at h2
      exact Bool.noConfusion h2
    · show (if now - p < MIN_INTERVAL then (st, false)
          else (setLastSeen st uid now, true)).1.lastSeen uid = some now
      rw [if_neg hlt]
      simp [setLastSeen]
  | none =>
    show (setLastSeen st uid now).lastSeen uid = some now
    simp [setLastSeen]

theorem rateAllow_some_lt (st : BotState) (uid : Int) (now p : ℚ)
    (hl : st.lastSeen uid = some p) (hlt : now - p < MIN_INTERVAL) :
    rateAllow st uid now = (st, false) := by
  unfold rateAllow
  rw [hl]
  simp [hlt]

theorem rateAllow_some_ge (st : BotState) (uid : Int) (now p : ℚ)
    (hl : st.lastSeen uid = some p) (hlt : ¬(now - p < MIN_INTERVAL)) :
    rateAllow st uid now = (setLastSeen st uid now, true) := by
  unfold rateAllow
  rw [hl]
  simp [hlt]

theorem rateAllow_none (st : BotState) (uid : Int) (now : ℚ)
    (hl : st.lastSeen uid = none) :
    rateAllow st uid now = (setLastSeen st uid now, true) := by
  unfold rateAllow
  rw [hl]

theorem rateAllow_fst_ctx (st : BotState) (uid : Int) (now : ℚ) :
    (rateAllow st uid now).1.ctx = st.ctx := by
  unfold rateAllow
  cases hl : st.lastSeen uid with
  | some p =>
    by_cases hlt : now - p < MIN_INTERVAL
    · simp [hlt]
    · simp [hlt, setLastSeen]
  | none => simp [setLastSeen]

theorem histOf_of_ctx_eq (a b : BotState) (uid : Int) (h : a.ctx = b.ctx) :
    histOf a uid = histOf b uid := by
  unfold histOf hist
  rw [h]
  cases hc : b.ctx uid <;> simp

/-! Helper lemmas reducing `on_text` in each of its three branches. -/

theorem on_text_refused (st : BotState) (uid : Int) (text : String) (now : ℚ)
    (env : Nat → AttemptOutcome) (st1 : BotState)
    (hr : rateAllow st uid now = (st1, false)) :
    on_text st uid text now env = ⟨st1, ["✅ Reçu : " ++ (pyStrip text)], none⟩ := by
  simp only [on_text, hr]

theorem on_text_resolved (st : BotState) (uid : Int) (text : String) (now : ℚ)
    (env : Nat → AttemptOutcome) (st1 : BotState) (r : String)
    (hr : rateAllow st uid now = (st1, true))
    (hres : (chat (histOf (push st1 uid "user" (pyStrip text)) uid) env).result
      = .resolved r) :
    on_text st uid text now env
      = ⟨push (push st1 uid "user" (pyStrip text)) uid "assistant" r,
         ["✅ Reçu : " ++ (pyStrip text), r],
         some (histOf (push st1 uid "user" (pyStrip text)) uid)⟩ := by
  simp only [on_text, hr, hres]

theorem on_text_raised (st : BotState) (uid : Int) (text : String) (now : ℚ)
    (env : Nat → AttemptOutcome) (st1 : BotState)
    (hr : rateAllow st uid now = (st1, true))
    (hres : (chat (histOf (push st1 uid "user" (pyStrip text)) uid) env).result
      = .raised) :
    on_text st uid text now env
      = ⟨push st1 uid "user" (pyStrip text),
         ["✅ Reçu : " ++ (pyStrip text), FALLBACK_MSG],
         some (histOf (push st1 uid "user" (pyStrip text)) uid)⟩ := by
  simp only [on_text, hr, hres]

theorem on_text_called_allowed (st : BotState) (uid : Int) (text : String)
    (now : ℚ) (env : Nat → AttemptOutcome) (st1 : BotState)
    (hr : rateAllow st uid now = (st1, true)) :
    (on_text st uid text now env).called
      = some (histOf (push st1 uid "user" (pyStrip text)) uid) := by
  cases hres : (chat (histOf (push st1 uid "user" (pyStrip text)) uid) env).result with
  | resolved r =>
    rw [on_text_resolved st uid text now env st1 r hr hres]
  | raised =>
    rw [on_text_raised st uid text now env st1 hr hres]

/-! Structural lemmas about `pushList` used for the no-rollback claim. -/

theorem pushList_eq_concat (l : List Turn) (t : Turn) :
    ∃ M, pushList l t = M ++ [t] := by
  have hM : MAX_TURNS = 10 := rfl
  unfold pushList
  by_cases hc : (l ++ [t]).length > 1 + 2 * MAX_TURNS
  · rw [if_pos hc]
    refine ⟨(l ++ [t]).take 1 ++ l.drop ((l ++ [t]).length - 2 * MAX_TURNS), ?_⟩
    rw [List.drop_append_of_le_length (by
      simp only [List.length_append, List.length_singleton] at hc ⊢
      omega)]
    rw [List.append_assoc]
  · rw [if_neg hc]
    exact ⟨l, rfl⟩

theorem mem_pushList_concat (M : List Turn) (u1 u2 : Turn) :
    u1 ∈ pushList (M ++ [u1]) u2 := by
  have hM : MAX_TURNS = 10 := rfl
  unfold pushList
  by_cases hc : ((M ++ [u1]) ++ [u2]).length > 1 + 2 * MAX_TURNS
  · rw [if_pos hc]
    refine List.mem_append.mpr (Or.inr ?_)
    rw [List.drop_append_of_le_length (by
      simp only [List.length_append, List.length_singleton] at hc ⊢
      omega)]
    refine List.mem_append.mpr (Or.inl ?_)
    rw [List.drop_append_of_le_length (by
      simp only [List.length_append, List.length_singleton] at hc ⊢
      omega)]
    exact List.mem_append.mpr (Or.inr (by simp))
  · rw [if_neg hc]
    simp

/-! Claim theorems for the completion client and the handler. -/

/-- C2 counterexample: the first attempt returns HTTP 500 while a second
attempt would have succeeded, yet `chat` resolves permanently on attempt 1
with the fixed HTTP-error string — contrary to the claim, a non-2xx status is
not retried and the call does not wait for 3 attempts before failing. -/
theorem chat_retry_c2_counterexample :
    (chat [systemTurn] envHttp500ThenOk).attemptsUsed = 1 ∧
    (chat [systemTurn] envHttp500ThenOk).result = .resolved HTTP_ERROR_MSG ∧
    attemptBody (envHttp500ThenOk 2) = some ("hi there", []) :=
  ⟨rfl, rfl, rfl⟩

/-- C2 (amended): a `chat` call runs at most 3 attempts; it fails permanently
(raises) exactly when all three attempts are transport failures; the waits
between attempts follow tenacity `wait_exponential(min=1, max=8)`, hence are
nondecreasing and between 1 and 8 time units; and a non-2xx HTTP status is
not retried — the call resolves on that attempt with the fixed HTTP-error
string. -/
theorem chat_retry_c2 :
    (∀ (messages : List Turn) (env : Nat → AttemptOutcome),
        (chat messages env).attemptsUsed ≤ 3) ∧
    (∀ (messages : List Turn) (env : Nat → AttemptOutcome),
        ((chat messages env).result = .raised ↔
          env 1 = .transportError ∧ env 2 = .transportError ∧
          env 3 = .transportError)) ∧
    (∀ (messages : List Turn) (env : Nat → AttemptOutcome),
        (chat messages env).waits
          = (List.range ((chat messages env).attemptsUsed - 1)).map
              (fun i => backoffWait (i + 1))) ∧
    (∀ n : Nat, 1 ≤ backoffWait n ∧ backoffWait n ≤ 8 ∧
        backoffWait n ≤ backoffWait (n + 1)) ∧
    (∀ (messages : List Turn) (env : Nat → AttemptOutcome) status rawText body,
        env 1 = .response status rawText body →
        ¬(200 ≤ status ∧ status < 300) →
        (chat messages env).attemptsUsed = 1 ∧
        (chat messages env).result = .resolved HTTP_ERROR_MSG) := by
  refine ⟨chat_attempts_le, chat_raised_iff, chat_waits_spec, ?_, ?_⟩
  · intro n
    refine ⟨le_max_left 1 _, max_le (by norm_num) (min_le_right _ _), ?_⟩
    unfold backoffWait
    refine max_le_max le_rfl (min_le_min ?_ le_rfl)
    exact pow_le_pow_right₀ (by norm_num) (by omega)
  · intro messages env status rawText body henv hns
    rw [chat_http_error messages env status rawText body henv hns]
    exact ⟨rfl, rfl⟩

/-- Witness for the amended C2 at the all-500 environment. -/
theorem chat_retry_c2_witness :
    (chat [systemTurn] env500).attemptsUsed = 1 ∧
    (chat [systemTurn] env500).result = .resolved HTTP_ERROR_MSG :=
  chat_retry_c2.2.2.2.2 [systemTurn] env500 500 "Internal Server Error"
    (Json.obj []) rfl (by decide)

/-- C3 counterexample: when all three attempts fail at the transport, `chat`
raises (`RetryError`) past its own boundary instead of resolving to a text
value. -/
theorem chat_boundary_c3_counterexample :
    (chat [systemTurn] envDown).result = .raised := rfl

/-- C3 (amended): `chat` resolves to the fixed HTTP-error string on an HTTP
error status; it raises only when all three attempts are transport failures;
and the caller `on_text` catches that exception — it always sends at least
one reply, and on a raised `chat` it replies with the fixed apology, so at
the handler boundary every accepted message still yields a text. -/
theorem chat_boundary_c3 :
    (∀ (messages : List Turn) (env : Nat → AttemptOutcome) status rawText body,
        env 1 = .response status rawText body →
        ¬(200 ≤ status ∧ status < 300) →
        (chat messages env).result = .resolved HTTP_ERROR_MSG) ∧
    (∀ (messages : List Turn) (env : Nat → AttemptOutcome),
        (chat messages env).result = .raised →
        env 1 = .transportError ∧ env 2 = .transportError ∧
          env 3 = .transportError) ∧
    (∀ (st : BotState) (uid : Int) (text : String) (now : ℚ)
        (env : Nat → AttemptOutcome),
        (on_text st uid text now env).replies ≠ []) ∧
    (∀ (st : BotState) (uid : Int) (text : String) (now : ℚ)
        (env : Nat → AttemptOutcome) (st1 : BotState),
        rateAllow st uid now = (st1, true) →
        (chat (histOf (push st1 uid "user" (pyStrip text)) uid) env).result = .raised →
        (on_text st uid text now env).replies
          = ["✅ Reçu : " ++ (pyStrip text), FALLBACK_MSG]) := by
  refine ⟨?_, ?_, ?_, ?_⟩
  · intro messages env status rawText body henv hns
    rw [chat_http_error messages env status rawText body henv hns]
  · intro messages env h
    exact (chat_raised_iff messages env).mp h
  · intro st uid text now env
    cases hr : rateAllow st uid now with
    | mk st1 b =>
      cases b with
      | false =>
        rw [on_text_refused st uid text now env st1 hr]
        simp
      | true =>
        cases hres : (chat (histOf (push st1 uid "user" (pyStrip text)) uid) env).result with
        | resolved r =>
          rw [on_text_resolved st uid text now env st1 r hr hres]
          simp
        | raised =>
          rw [on_text_raised st uid text now env st1 hr hres]
          simp
  · intro st uid text now env st1 hr hres
    rw [on_text_raised st uid text now env st1 hr hres]

/-- Witness for the amended C3: a refused transport yields the apology. -/
theorem chat_boundary_c3_witness :
    (on_text initState 0 "salut" 0 envDown).replies
      = ["✅ Reçu : " ++ (pyStrip "salut"), FALLBACK_MSG] :=
  chat_boundary_c3.2.2.2 initState 0 "salut" 0 envDown
    (setLastSeen initState 0 0) rfl rfl

/-- C6: the anti-spam gate refuses exactly when a prior timestamp exists
within `MIN_INTERVAL = 0.6` of `now`; when it allows it records `now`; two
calls at t=0 and t=0.5 yield (true, false) while t=0 and t=0.7 yield
(true, true); and a refused message changes no state, appends no turn and
makes no completion call. -/
theorem rate_limiter_c6 :
    (∀ (st : BotState) (uid : Int) (now : ℚ),
        ((rateAllow st uid now).2 = false ↔
          ∃ p, st.lastSeen uid = some p ∧ now - p < MIN_INTERVAL)) ∧
    (∀ (st : BotState) (uid : Int) (now : ℚ),
        (rateAllow st uid now).2 = true →
        (rateAllow st uid now).1.lastSeen uid = some now) ∧
    (∀ uid : Int, (rateAllow initState uid 0).2 = true ∧
        (rateAllow (rateAllow initState uid 0).1 uid (1/2)).2 = false) ∧
    (∀ uid : Int, (rateAllow initState uid 0).2 = true ∧
        (rateAllow (rateAllow initState uid 0).1 uid (7/10)).2 = true) ∧
    (∀ (st : BotState) (uid : Int) (text : String) (now : ℚ)
        (env : Nat → AttemptOutcome),
        (rateAllow st uid now).2 = false →
        (on_text st uid text now env).state = st ∧
        (on_text st uid text now env).called = none) := by
  refine ⟨rateAllow_false_iff, rateAllow_true_lastSeen, ?_, ?_, ?_⟩
  · intro uid
    have e1 : rateAllow initState uid 0 = (setLastSeen initState uid 0, true) :=
      rateAllow_none initState uid 0 rfl
    have e2 : (setLastSeen initState uid 0).lastSeen uid = some 0 := by
      simp [setLastSeen]
    refine ⟨by rw [e1], ?_⟩
    rw [e1, rateAllow_some_lt (setLastSeen initState uid 0) uid (1/2) 0 e2
      (by norm_num [MIN_INTERVAL])]
  · intro uid
    have e1 : rateAllow initState uid 0 = (setLastSeen initState uid 0, true) :=
      rateAllow_none initState uid 0 rfl
    have e2 : (setLastSeen initState uid 0).lastSeen uid = some 0 := by
      simp [setLastSeen]
    refine ⟨by rw [e1], ?_⟩
    rw [e1, rateAllow_some_ge (setLastSeen initState uid 0) uid (7/10) 0 e2
      (by norm_num [MIN_INTERVAL])]
  · intro st uid text now env h
    have hst := rateAllow_false_state st uid now h
    cases hr : rateAllow st uid now with
    | mk st1 b =>
      rw [hr] at h hst
      have hb : b = false := h
      subst hb
      rw [on_text_refused st uid text now env st1 hr]
      exact ⟨hst, rfl⟩

/-- Witness for C6: the two concrete scenarios for user 0, and the refused
second message leaving the state unchanged. -/
theorem rate_limiter_c6_witness :
    (rateAllow (rateAllow initState 0 0).1 0 (1/2)).2 = false ∧
    (rateAllow (rateAllow initState 0 0).1 0 (7/10)).2 = true ∧
    (on_text (rateAllow initState 0 0).1 0 "yo" (1/2) envDown).state
      = (rateAllow initState 0 0).1 :=
  ⟨(rate_limiter_c6.2.2.1 0).2, (rate_limiter_c6.2.2.2.1 0).2,
    (rate_limiter_c6.2.2.2.2 (rateAllow initState 0 0).1 0 "yo" (1/2) envDown
      (rate_limiter_c6.2.2.1 0).2).1⟩

/-- C7: an HTTP-successful response whose body lacks the expected reply field
makes `chat` resolve (no crash) with the fixed unexpected-response string on
that very attempt (no retry), logging the response body. -/
theorem malformed_response_c7 (messages : List Turn)
    (env : Nat → AttemptOutcome) (status : Nat) (rawText : String) (body : Json)
    (henv : env 1 = .response status rawText body)
    (h2xx : 200 ≤ status ∧ status < 300)
    (hex : extractContent body = none) :
    chat messages env = ⟨.resolved UNEXPECTED_MSG, 1, [],
      [chatRequest messages], [.unexpectedResponse body]⟩ :=
  chat_unexpected messages env status rawText body henv h2xx hex

/-- Witness for C7 at the spec scenario body with an empty choices list. -/
theorem malformed_response_c7_witness :
    chat [systemTurn] envEmptyChoices
      = ⟨.resolved UNEXPECTED_MSG, 1, [], [chatRequest [systemTurn]],
          [.unexpectedResponse emptyChoicesBody]⟩ :=
  malformed_response_c7 [systemTurn] envEmptyChoices 200 "ok" emptyChoicesBody
    rfl (by decide) rfl

/-- C8: a successful completion call sends an HTTPS POST to the completion
endpoint whose JSON payload carries the configured model identifier, the
full ordered turn sequence serialized as `(role, content)` pairs, a fixed
temperature of 0.35 and `max_tokens = 750` (an integer within 700-750), and
it resolves to the first choice's nested message content with surrounding
whitespace stripped. -/
theorem request_shape_c8 (messages : List Turn) (env : Nat → AttemptOutcome)
    (status : Nat) (rawText : String) (body : Json) (s : String)
    (henv : env 1 = .response status rawText body)
    (h2xx : 200 ≤ status ∧ status < 300)
    (hex : extractContent body = some s) :
    (chat messages env).result = .resolved (pyStrip s) ∧
    (chat messages env).requests = [chatRequest messages] ∧
    (chatRequest messages).method = "POST" ∧
    (chatRequest messages).url = OPENAI_BASE ++ "/chat/completions" ∧
    (∃ rest, (chatRequest messages).url = "https://" ++ rest) ∧
    (chatRequest messages).payload.model = MODEL_NAME ∧
    (chatRequest messages).payload.messages
      = messages.map (fun t => (t.role, t.content)) ∧
    (chatRequest messages).payload.temperature = 35/100 ∧
    700 ≤ (chatRequest messages).payload.max_tokens ∧
    (chatRequest messages).payload.max_tokens ≤ 750 := by
  rw [chat_success messages env status rawText body s henv h2xx hex]
  exact ⟨rfl, rfl, rfl, rfl, ⟨"api.openai.com/v1/chat/completions", rfl⟩,
    rfl, rfl, rfl, by norm_num [chatRequest, chatPayload],
    by norm_num [chatRequest, chatPayload]⟩

/-- Witness for C8 at a concrete two-turn conversation and success body. -/
theorem request_shape_c8_witness :
    (chat [systemTurn, ⟨"user", "hello"⟩] envHi).result
      = .resolved (pyStrip "hi there") ∧
    (chat [systemTurn, ⟨"user", "hello"⟩] envHi).requests
      = [chatRequest [systemTurn, ⟨"user", "hello"⟩]] := by
  have h := request_shape_c8 [systemTurn, ⟨"user", "hello"⟩] envHi 200 "ok"
    goodBody "hi there" rfl (by decide) rfl
  exact ⟨h.1, h.2.1⟩

/-- C9: end-to-end scenario — a user with a fresh conversation sends "hello":
the store gains the user turn, the completion client is invoked with
`[system, user "hello"]`, and on the successful reply "hi there" the store
gains an assistant turn, leaving a conversation of length 3, with the echo
and the reply sent back. -/
theorem end_to_end_c9 (uid : Int) (now : ℚ) :
    (on_text initState uid "hello" now envHi).called
      = some [systemTurn, ⟨"user", "hello"⟩] ∧
    (on_text initState uid "hello" now envHi).state.ctx uid
      = some [systemTurn, ⟨"user", "hello"⟩, ⟨"assistant", "hi there"⟩] ∧
    (on_text initState uid "hello" now envHi).replies
      = ["✅ Reçu : hello", "hi there"] := by
  have hra : rateAllow initState uid now = (setLastSeen initState uid now, true) :=
    rateAllow_none initState uid now rfl
  have hstrip : pyStrip "hello" = "hello" := rfl
  have hh1 : histOf (push (setLastSeen initState uid now) uid "user"
      (pyStrip "hello")) uid = [systemTurn, ⟨"user", "hello"⟩] := by
    rw [histOf_push, hstrip]
    rfl
  have hchat : (chat (histOf (push (setLastSeen initState uid now) uid "user"
      (pyStrip "hello")) uid) envHi).result = .resolved "hi there" := by
    rw [hh1]
    rfl
  rw [on_text_resolved initState uid "hello" now envHi
    (setLastSeen initState uid now) "hi there" hra hchat]
  refine ⟨?_, ?_, ?_⟩
  · rw [hh1]
  · show (push (push (setLastSeen initState uid now) uid "user"
        (pyStrip "hello")) uid "assistant" "hi there").ctx uid = _
    rw [push_ctx_self, hh1]
    rfl
  · rfl

/-- Witness for C9 at user 0 and time 0. -/
theorem end_to_end_c9_witness :
    (on_text initState 0 "hello" 0 envHi).called
      = some [systemTurn, ⟨"user", "hello"⟩] ∧
    (on_text initState 0 "hello" 0 envHi).state.ctx 0
      = some [systemTurn, ⟨"user", "hello"⟩, ⟨"assistant", "hi there"⟩] :=
  ⟨(end_to_end_c9 0 0).1, (end_to_end_c9 0 0).2.1⟩

/-- C10: when `chat` raises after the user turn was pushed, no assistant turn
is appended and the user turn is not rolled back: the stored conversation is
exactly the user-push result, and that user turn is part of the message
sequence sent to the completion client on the user's next accepted
message. -/
theorem no_rollback_c10 (st : BotState) (uid : Int) (text : String) (now : ℚ)
    (env : Nat → AttemptOutcome) (st1 : BotState)
    (hr : rateAllow st uid now = (st1, true))
    (hres : (chat (histOf (push st1 uid "user" (pyStrip text)) uid) env).result
      = .raised) :
    (on_text st uid text now env).state.ctx uid
      = some (pushList (histOf st uid) ⟨"user", pyStrip text⟩) ∧
    (∀ (now2 : ℚ) (text2 : String) (env2 : Nat → AttemptOutcome)
        (st2 : BotState),
      rateAllow (on_text st uid text now env).state uid now2 = (st2, true) →
      ∃ msgs,
        (on_text (on_text st uid text now env).state uid text2 now2 env2).called
          = some msgs ∧ (⟨"user", pyStrip text⟩ : Turn) ∈ msgs) := by
  have hctx1 : st1.ctx = st.ctx := by
    have h := rateAllow_fst_ctx st uid now
    rw [hr] at h
    exact h
  have hhist1 : histOf st1 uid = histOf st uid :=
    histOf_of_ctx_eq st1 st uid hctx1
  have hot := on_text_raised st uid text now env st1 hr hres
  constructor
  · rw [hot]
    show (push st1 uid "user" (pyStrip text)).ctx uid = _
    rw [push_ctx_self, hhist1]
  · intro now2 text2 env2 st2 hr2
    rw [hot] at hr2 ⊢
    refine ⟨histOf (push st2 uid "user" (pyStrip text2)) uid, ?_, ?_⟩
    · exact on_text_called_allowed _ uid text2 now2 env2 st2 hr2
    · have hctx2 : st2.ctx = (push st1 uid "user" (pyStrip text)).ctx := by
        have h := rateAllow_fst_ctx (push st1 uid "user" (pyStrip text)) uid now2
        rw [hr2] at h
        exact h
      rw [histOf_push]
      have hh2 : histOf st2 uid
          = pushList (histOf st uid) ⟨"user", pyStrip text⟩ := by
        rw [histOf_of_ctx_eq st2 (push st1 uid "user" (pyStrip text)) uid hctx2,
          histOf_push, hhist1]
      rw [hh2]
      obtain ⟨M, hM⟩ := pushList_eq_concat (histOf st uid) ⟨"user", pyStrip text⟩
      rw [hM]
      exact mem_pushList_concat M _ _

/-- Witness for C10: the conversation after a failed completion call holds
exactly the seeded system turn plus the pushed user turn. -/
theorem no_rollback_c10_witness :
    (on_text initState 0 "hello" 0 envDown).state.ctx 0
      = some (pushList (histOf initState 0) ⟨"user", pyStrip "hello"⟩) :=
  (no_rollback_c10 initState 0 "hello" 0 envDown (setLastSeen initState 0 0)
    (rateAllow_none initState 0 0 rfl) rfl).1

end Bot
